import Mathlib

/-!
Verification of the head-to-head aggregator of the VoleAI API
(`get_matches_head_to_head` in `src/main.py`, lines 237-256).

The endpoint fetches the match rows between two slugs and then runs:

```
wins1, wins2 = 0, 0
for m in matches:
    is_p1_home = m["team1_slug"] == pair1
    if is_p1_home:
        if m["winner_team"] == 1: wins1 += 1
        else: wins2 += 1
    else:
        if m["winner_team"] == 2: wins1 += 1
        else: wins2 += 1
return {"summary": {pair1: wins1, pair2: wins2, "total_matches": len(matches)},
        "history": matches}
```

We embed this loop twice:
* a schema-typed model (`MatchRec`, `tally`, `get_matches_head_to_head`)
  where each row is a record whose nullable `winner_team` column is an
  `Option Int` (`none` models SQL NULL / Python `None`; in Python
  `None == 1` is `False`, which the `Option` `BEq` reproduces because
  `none == some 1` is `false`);
* an untyped-row model (`Row`, `tallyE`, `headToHeadE`) in the `Except`
  monad, where `m["k"]` is a dictionary access that raises `KeyError`
  when the key is missing, used to settle the totality claim.

The Python summary dictionary literal is modelled by `dictInsert`, which
has CPython semantics: a duplicate key overwrites the earlier value in
place, otherwise the pair is appended, so the key order of
`{pair1: wins1, pair2: wins2, "total_matches": n}` is insertion order.
-/

namespace VoleAI

/-- A row of the `matches` table, restricted to the columns the
head-to-head loop reads (`team1_slug`, `winner_team`) plus `team2_slug`,
which the surrounding query and the spec's well-formedness conditions
mention.  `winner_team` is nullable in the store, hence `Option Int`. -/
structure MatchRec where
  team1_slug : String
  team2_slug : String
  winner_team : Option Int
  deriving Repr, DecidableEq

/-- One iteration of the loop body of `get_matches_head_to_head`
(src/main.py lines 249-255), acting on the accumulator `(wins1, wins2)`. -/
def tallyStep (pair1 : String) (acc : Int × Int) (m : MatchRec) : Int × Int :=
  let is_p1_home := m.team1_slug == pair1
  if is_p1_home then
    if m.winner_team == some 1 then (acc.1 + 1, acc.2) else (acc.1, acc.2 + 1)
  else
    if m.winner_team == some 2 then (acc.1 + 1, acc.2) else (acc.1, acc.2 + 1)

/-- The whole counting loop: fold `tallyStep` over the match list starting
from `wins1 = 0, wins2 = 0` (src/main.py lines 248-255). -/
def tally (ms : List MatchRec) (pair1 : String) : Int × Int :=
  ms.foldl (tallyStep pair1) (0, 0)

/-- Python dictionary insertion (CPython semantics): if the key is already
present its value is overwritten in place, otherwise the pair is appended.
A dict literal is a sequence of such insertions into the empty dict. -/
def dictInsert : List (String × Int) → String → Int → List (String × Int)
  | [], k, v => [(k, v)]
  | p :: d, k, v => if p.1 == k then (k, v) :: d else p :: dictInsert d k v

/-- Python dictionary lookup `d[k]` on the association-list model. -/
def dictGet (d : List (String × Int)) (k : String) : Option Int :=
  (d.find? (fun p => p.1 == k)).map (fun p => p.2)

/-- The JSON object returned by the endpoint: the `summary` dict (an
insertion-ordered association list, as in CPython) and the `history`. -/
structure H2HResult where
  summary : List (String × Int)
  history : List MatchRec
  deriving Repr, DecidableEq

/-- The aggregation part of `get_matches_head_to_head`
(src/main.py lines 247-256): run the counting loop, then build
`{"summary": {pair1: wins1, pair2: wins2, "total_matches": len(matches)},
"history": matches}`. -/
def get_matches_head_to_head (ms : List MatchRec) (pair1 pair2 : String) :
    H2HResult :=
  let wins := tally ms pair1
  { summary :=
      dictInsert
        (dictInsert (dictInsert [] pair1 wins.1) pair2 wins.2)
        "total_matches" (ms.length : Int)
  , history := ms }

/-- The win count the result's summary records for a slug. -/
def winsOf (r : H2HResult) (slug : String) : Option Int :=
  dictGet r.summary slug

/-- The `total_matches` field of the result's summary. -/
def totalOf (r : H2HResult) : Option Int :=
  dictGet r.summary "total_matches"

/-- The sum of the win values of a summary: the values of every key other
than `"total_matches"`. -/
def sumWins (d : List (String × Int)) : Int :=
  ((d.filter (fun p => !(p.1 == "total_matches"))).map (fun p => p.2)).sum

/-- Modelled from the spec: the side slug `A` occupies in a match —
side 1 if `team1_slug == A`, else side 2. -/
def sideOf (A : String) (m : MatchRec) : Int :=
  if m.team1_slug == A then 1 else 2

/-- Modelled from the spec: the rule "increment A's win counter if the
side A occupies equals `winner_team`".  With a nullable winner column the
comparison is `winner_team == some (sideOf A m)`. -/
def winsBySpec (A : String) (m : MatchRec) : Bool :=
  m.winner_team == some (sideOf A m)

/-- Whether a match involves a slug on either side. -/
def involves (m : MatchRec) (s : String) : Bool :=
  m.team1_slug == s || m.team2_slug == s

/-- A Python value as it appears in a row dictionary returned by the data
store client: a string, an int, or `None` (SQL NULL). -/
inductive PyVal where
  | vstr : String → PyVal
  | vint : Int → PyVal
  | vnone : PyVal
  deriving Repr, DecidableEq

/-- Python `==` between row values: equal only when of the same kind and
equal there; comparisons across kinds (for example `None == 1`) are
`False` and raise nothing. -/
def pyEq : PyVal → PyVal → Bool
  | .vstr a, .vstr b => a == b
  | .vint a, .vint b => a == b
  | .vnone, .vnone => true
  | _, _ => false

/-- An untyped row: the dictionary the data store client hands back. -/
abbrev Row : Type := List (String × PyVal)

/-- Python `row[k]`: the value stored under `k`, or a `KeyError` when the
key is missing. -/
def getItem (row : Row) (k : String) : Except String PyVal :=
  match List.find? (fun p => p.1 == k) row with
  | some p => .ok p.2
  | none => .error ("KeyError: " ++ k)

/-- Whether a row dictionary has a key. -/
def hasKey (row : Row) (k : String) : Bool :=
  (List.find? (fun p => p.1 == k) row).isSome

/-- The loop body of `get_matches_head_to_head` with Python dictionary
accesses made explicit: `m["team1_slug"]` and `m["winner_team"]` can raise
`KeyError`, everything else is total. -/
def stepE (pair1 : String) (acc : Int × Int) (row : Row) :
    Except String (Int × Int) := do
  let t1 ← getItem row "team1_slug"
  let w ← getItem row "winner_team"
  let is_p1_home := pyEq t1 (.vstr pair1)
  if is_p1_home then
    if pyEq w (.vint 1) then pure (acc.1 + 1, acc.2) else pure (acc.1, acc.2 + 1)
  else
    if pyEq w (.vint 2) then pure (acc.1 + 1, acc.2) else pure (acc.1, acc.2 + 1)

/-- The counting loop over untyped rows. -/
def tallyE (rows : List Row) (pair1 : String) : Except String (Int × Int) :=
  rows.foldlM (stepE pair1) (0, 0)

/-- The endpoint result in the untyped-row model. -/
structure H2HResultE where
  summary : List (String × Int)
  history : List Row
  deriving Repr, DecidableEq

/-- `get_matches_head_to_head` over untyped rows: the only partial
operations are the two dictionary accesses inside the loop; building the
summary dict and returning the history cannot fail. -/
def headToHeadE (rows : List Row) (pair1 pair2 : String) :
    Except String H2HResultE := do
  let wins ← tallyE rows pair1
  pure { summary :=
           dictInsert
             (dictInsert (dictInsert [] pair1 wins.1) pair2 wins.2)
             "total_matches" (rows.length : Int)
       , history := rows }

/-! ### Concrete sample inputs, used by witnesses and counterexamples -/

/-- Three matches between slugs `a` and `b`: a home win for `a`, an away
win for `a`, and a match with a NULL winner. -/
def msSample : List MatchRec :=
  [⟨"a", "b", some 1⟩, ⟨"b", "a", some 2⟩, ⟨"a", "b", none⟩]

/-- A single match that involves neither slug `a` nor slug `b`. -/
def msStray : List MatchRec := [⟨"c", "d", some 2⟩]

/-- Two matches between `a` and `b` whose winner indicators are NULL and
`3`: values outside the winner domain `{1, 2}`. -/
def msOdd : List MatchRec := [⟨"a", "b", none⟩, ⟨"b", "a", some 3⟩]

/-- The stray match as an untyped row. -/
def strayRow : Row :=
  [("team1_slug", PyVal.vstr "c"), ("team2_slug", PyVal.vstr "d"),
   ("winner_team", PyVal.vint 2)]

/-- Two untyped rows whose `winner_team` is NULL and `3` respectively:
present keys, values outside the winner domain. -/
def rowsOddWinners : List Row :=
  [[("team1_slug", PyVal.vstr "a"), ("team2_slug", PyVal.vstr "b"),
    ("winner_team", PyVal.vnone)],
   [("team1_slug", PyVal.vstr "b"), ("team2_slug", PyVal.vstr "a"),
    ("winner_team", PyVal.vint 3)]]

/-! ### Helper lemmas -/

theorem tallyStep_eq (A : String) (acc : Int × Int) (m : MatchRec) :
    tallyStep A acc m =
      if winsBySpec A m then (acc.1 + 1, acc.2) else (acc.1, acc.2 + 1) := by
  unfold tallyStep winsBySpec sideOf
  by_cases h : m.team1_slug == A <;> simp [h]

theorem tally_go (A : String) (ms : List MatchRec) :
    ∀ a b : Int, ms.foldl (tallyStep A) (a, b) =
      (a + (ms.countP (winsBySpec A) : Int),
       b + (ms.countP (fun m => !winsBySpec A m) : Int)) := by
  induction ms with
  | nil => intro a b; simp
  | cons m ms ih =>
    intro a b
    rw [List.foldl_cons, tallyStep_eq]
    cases hw : winsBySpec A m with
    | true =>
      rw [if_pos rfl, ih, Prod.mk.injEq,
        List.countP_cons_of_pos _ _ hw,
        List.countP_cons_of_neg _ _ (by simp [hw])]
      push_cast
      omega
    | false =>
      rw [if_neg (by simp), ih, Prod.mk.injEq,
        List.countP_cons_of_neg _ _ (by simp [hw]),
        List.countP_cons_of_pos _ _ (by simp [hw])]
      push_cast
      omega

theorem tally_fst (ms : List MatchRec) (A : String) :
    (tally ms A).1 = (ms.countP (winsBySpec A) : Int) := by
  unfold tally; rw [tally_go]; simp

theorem tally_snd (ms : List MatchRec) (A : String) :
    (tally ms A).2 = (ms.countP (fun m => !winsBySpec A m) : Int) := by
  unfold tally; rw [tally_go]; simp

theorem tally_sum (ms : List MatchRec) (A : String) :
    (tally ms A).1 + (tally ms A).2 = (ms.length : Int) := by
  rw [tally_fst, tally_snd]
  have h : ms.countP (winsBySpec A) +
      ms.countP (fun m => !winsBySpec A m) = ms.length := by
    induction ms with
    | nil => simp
    | cons m ms ih =>
      cases hw : winsBySpec A m with
      | true =>
        rw [List.countP_cons_of_pos _ _ hw,
          List.countP_cons_of_neg _ _ (by simp [hw]), List.length_cons]
        omega
      | false =>
        rw [List.countP_cons_of_neg _ _ (by simp [hw]),
          List.countP_cons_of_pos _ _ (by simp [hw]), List.length_cons]
        omega
  exact_mod_cast h

theorem tally_nonneg (ms : List MatchRec) (A : String) :
    0 ≤ (tally ms A).1 ∧ 0 ≤ (tally ms A).2 := by
  rw [tally_fst, tally_snd]
  exact ⟨Int.natCast_nonneg _, Int.natCast_nonneg _⟩

theorem dictGet_insert_self (d : List (String × Int)) (k : String) (v : Int) :
    dictGet (dictInsert d k v) k = some v := by
  induction d with
  | nil => simp [dictInsert, dictGet]
  | cons p d ih =>
    by_cases h : (p.1 == k) = true
    · simp [dictInsert, h, dictGet]
    · have h2 : (p.1 == k) = false := by simpa using h
      simpa [dictInsert, h2, dictGet, List.find?_cons] using ih

theorem dictGet_insert_ne (d : List (String × Int)) (k q : String) (v : Int)
    (h : q ≠ k) : dictGet (dictInsert d k v) q = dictGet d q := by
  have hkq : (k == q) = false := by simpa using Ne.symm h
  induction d with
  | nil => simp [dictInsert, dictGet, List.find?_cons, hkq]
  | cons p d ih =>
    by_cases hp : (p.1 == k) = true
    · have hp1 : p.1 = k := by simpa using hp
      have hpq : (p.1 == q) = false := by rw [hp1]; exact hkq
      simp [dictInsert, hp, dictGet, List.find?_cons, hkq, hpq]
    · have hp2 : (p.1 == k) = false := by simpa using hp
      by_cases hq : (p.1 == q) = true
      · simp [dictInsert, hp2, dictGet, List.find?_cons, hq]
      · have hq2 : (p.1 == q) = false := by simpa using hq
        simpa [dictInsert, hp2, dictGet, List.find?_cons, hq2] using ih

/-- The summary dict, fully evaluated when the three keys are distinct. -/
theorem summary_eq (ms : List MatchRec) (A B : String)
    (hAB : A ≠ B) (hA : A ≠ "total_matches") (hB : B ≠ "total_matches") :
    (get_matches_head_to_head ms A B).summary =
      [(A, (tally ms A).1), (B, (tally ms A).2),
       ("total_matches", (ms.length : Int))] := by
  have hAB2 : (A == B) = false := by simp [hAB]
  have hA2 : (A == "total_matches") = false := by simp [hA]
  have hB2 : (B == "total_matches") = false := by simp [hB]
  simp [get_matches_head_to_head, dictInsert, hAB2, hA2, hB2]

theorem winsOf_eq_fst (ms : List MatchRec) (A B : String)
    (hAB : A ≠ B) (hA : A ≠ "total_matches") (hB : B ≠ "total_matches") :
    winsOf (get_matches_head_to_head ms A B) A = some (tally ms A).1 := by
  unfold winsOf
  rw [summary_eq ms A B hAB hA hB]
  simp [dictGet]

theorem winsOf_eq_snd (ms : List MatchRec) (A B : String)
    (hAB : A ≠ B) (hA : A ≠ "total_matches") (hB : B ≠ "total_matches") :
    winsOf (get_matches_head_to_head ms A B) B = some (tally ms A).2 := by
  have hAB2 : (A == B) = false := by simp [hAB]
  unfold winsOf
  rw [summary_eq ms A B hAB hA hB]
  simp [dictGet, hAB2]

theorem totalOf_eq (ms : List MatchRec) (A B : String)
    (hAB : A ≠ B) (hA : A ≠ "total_matches") (hB : B ≠ "total_matches") :
    totalOf (get_matches_head_to_head ms A B) = some (ms.length : Int) := by
  have hA2 : (A == "total_matches") = false := by simp [hA]
  have hB2 : (B == "total_matches") = false := by simp [hB]
  unfold totalOf
  rw [summary_eq ms A B hAB hA hB]
  simp [dictGet, hA2, hB2]

/-- Under the spec's match invariant (slugs exactly `{A, B}` with `A ≠ B`
and a winner side in `{1, 2}`), a match is a win for `B` exactly when it
is not a win for `A`. -/
theorem winsBySpec_swap (A B : String) (m : MatchRec) (hAB : A ≠ B)
    (h1 : (m.team1_slug = A ∧ m.team2_slug = B) ∨
          (m.team1_slug = B ∧ m.team2_slug = A))
    (h2 : m.winner_team = some 1 ∨ m.winner_team = some 2) :
    winsBySpec B m = !winsBySpec A m := by
  have hAB2 : (A == B) = false := by simpa using hAB
  have hBA2 : (B == A) = false := by simpa using Ne.symm hAB
  unfold winsBySpec sideOf
  rcases h1 with ⟨e1, _⟩ | ⟨e1, _⟩ <;> rcases h2 with e3 | e3 <;>
    rw [e1, e3] <;> simp [hAB2, hBA2]

/-- A match whose `winner_team` is neither `1` nor `2` is never counted
as a win for the first slot of the tally. -/
theorem winsBySpec_out_of_range (A : String) (m : MatchRec)
    (h1 : m.winner_team ≠ some 1) (h2 : m.winner_team ≠ some 2) :
    winsBySpec A m = false := by
  unfold winsBySpec sideOf
  by_cases h : (m.team1_slug == A) = true <;> simp [h, h1, h2]

/-- Binding a successful `Except` value just applies the continuation. -/
theorem except_ok_bind {α β : Type} (a : α) (f : α → Except String β) :
    (Except.ok a >>= f) = f a := rfl

/-- One loop iteration over an untyped row succeeds as soon as the two
keys the loop reads are present, whatever their values. -/
theorem stepE_ok (p1 : String) (acc : Int × Int) (row : Row)
    (h1 : hasKey row "team1_slug" = true)
    (h2 : hasKey row "winner_team" = true) :
    ∃ w, stepE p1 acc row = Except.ok w := by
  unfold hasKey at h1 h2
  obtain ⟨p, hp⟩ := Option.isSome_iff_exists.mp h1
  obtain ⟨q, hq⟩ := Option.isSome_iff_exists.mp h2
  unfold stepE getItem
  rw [hp, hq]
  by_cases c1 : pyEq p.2 (PyVal.vstr p1) = true
  · by_cases c2 : pyEq q.2 (PyVal.vint 1) = true
    · refine ⟨(acc.1 + 1, acc.2), ?_⟩
      simp only [except_ok_bind]
      rw [if_pos c1, if_pos c2]; rfl
    · refine ⟨(acc.1, acc.2 + 1), ?_⟩
      simp only [except_ok_bind]
      rw [if_pos c1, if_neg c2]; rfl
  · by_cases c2 : pyEq q.2 (PyVal.vint 2) = true
    · refine ⟨(acc.1 + 1, acc.2), ?_⟩
      simp only [except_ok_bind]
      rw [if_neg c1, if_pos c2]; rfl
    · refine ⟨(acc.1, acc.2 + 1), ?_⟩
      simp only [except_ok_bind]
      rw [if_neg c1, if_neg c2]; rfl

/-- The whole counting loop over untyped rows succeeds from any
accumulator when every row has the two keys the loop reads. -/
theorem tallyE_go_ok (p1 : String) (rows : List Row)
    (h : ∀ r ∈ rows, hasKey r "team1_slug" = true ∧
         hasKey r "winner_team" = true) :
    ∀ acc : Int × Int, ∃ w, rows.foldlM (stepE p1) acc = Except.ok w := by
  induction rows with
  | nil => intro acc; exact ⟨acc, rfl⟩
  | cons r rows ih =>
    intro acc
    obtain ⟨h1, h2⟩ := h r (List.mem_cons_self r rows)
    obtain ⟨w1, hw1⟩ := stepE_ok p1 acc r h1 h2
    obtain ⟨w2, hw2⟩ :=
      ih (fun r hr => h r (List.mem_cons_of_mem _ hr)) w1
    refine ⟨w2, ?_⟩
    rw [List.foldlM_cons, hw1]
    simpa only [except_ok_bind] using hw2

/-! ### Claims -/

/-- C1: for every match in the input list, the aggregator determines A's
side as side 1 if the match's `team1_slug` equals A and side 2 otherwise,
and increments A's win counter exactly when that side equals the match's
`winner_team`, otherwise B's; the returned tallies are the result of
applying this rule to every match (counted via `winsBySpec`, the rule as
the spec words it). -/
theorem h2h_counts_follow_side_rule (ms : List MatchRec) (A B : String)
    (hAB : A ≠ B) (hA : A ≠ "total_matches") (hB : B ≠ "total_matches") :
    winsOf (get_matches_head_to_head ms A B) A =
      some ((ms.countP (winsBySpec A) : Int)) ∧
    winsOf (get_matches_head_to_head ms A B) B =
      some ((ms.countP (fun m => !winsBySpec A m) : Int)) := by
  constructor
  · rw [winsOf_eq_fst ms A B hAB hA hB, tally_fst]
  · rw [winsOf_eq_snd ms A B hAB hA hB, tally_snd]

/-- Witness for C1 at a concrete input: `msSample` has two wins for `a`
(one as side 1, one as side 2) and one match whose NULL winner goes to
`b`. -/
theorem h2h_counts_follow_side_rule_witness :
    (("a" : String) ≠ "b" ∧ ("a" : String) ≠ "total_matches" ∧
     ("b" : String) ≠ "total_matches") ∧
    (winsOf (get_matches_head_to_head msSample "a" "b") "a" =
      some ((msSample.countP (winsBySpec "a") : Int)) ∧
     winsOf (get_matches_head_to_head msSample "a" "b") "b" =
      some ((msSample.countP (fun m => !winsBySpec "a" m) : Int))) :=
  ⟨⟨by decide, by decide, by decide⟩,
   h2h_counts_follow_side_rule msSample "a" "b"
     (by decide) (by decide) (by decide)⟩

/-- C2: for every input list in which each match's pair of slugs is
exactly `{A, B}`, the two win counts of the result add up to the
`total_matches` field. -/
theorem h2h_wins_add_to_total (ms : List MatchRec) (A B : String)
    (hAB : A ≠ B) (hA : A ≠ "total_matches") (hB : B ≠ "total_matches")
    (hpairs : ∀ m ∈ ms,
      (m.team1_slug = A ∧ m.team2_slug = B) ∨
      (m.team1_slug = B ∧ m.team2_slug = A)) :
    ∀ wA wB t : Int,
      winsOf (get_matches_head_to_head ms A B) A = some wA →
      winsOf (get_matches_head_to_head ms A B) B = some wB →
      totalOf (get_matches_head_to_head ms A B) = some t →
      wA + wB = t := by
  intro wA wB t e1 e2 e3
  rw [winsOf_eq_fst ms A B hAB hA hB] at e1
  rw [winsOf_eq_snd ms A B hAB hA hB] at e2
  rw [totalOf_eq ms A B hAB hA hB] at e3
  rw [← Option.some.inj e1, ← Option.some.inj e2, ← Option.some.inj e3]
  exact tally_sum ms A

/-- Witness for C2 at a concrete input: on `msSample` (all matches
between `a` and `b`) the counts are `2 + 1 = 3`. -/
theorem h2h_wins_add_to_total_witness :
    (("a" : String) ≠ "b" ∧ ("a" : String) ≠ "total_matches" ∧
     ("b" : String) ≠ "total_matches" ∧
     (∀ m ∈ msSample,
       (m.team1_slug = "a" ∧ m.team2_slug = "b") ∨
       (m.team1_slug = "b" ∧ m.team2_slug = "a")) ∧
     winsOf (get_matches_head_to_head msSample "a" "b") "a" = some 2 ∧
     winsOf (get_matches_head_to_head msSample "a" "b") "b" = some 1 ∧
     totalOf (get_matches_head_to_head msSample "a" "b") = some 3) ∧
    (2 : Int) + 1 = 3 :=
  ⟨⟨by decide, by decide, by decide, by decide, by decide, by decide,
    by decide⟩,
   h2h_wins_add_to_total msSample "a" "b"
     (by decide) (by decide) (by decide) (by decide) 2 1 3
     (by decide) (by decide) (by decide)⟩

/-- C3: the aggregator is total. Over untyped rows, the only partial
operations are the two dictionary accesses of the loop, so on any
well-formed input — every row carries the `team1_slug` and `winner_team`
keys, with arbitrary values, NULL and out-of-range winners included —
the endpoint returns a result and raises no error. -/
theorem headToHead_total (rows : List Row) (A B : String)
    (h : ∀ r ∈ rows, hasKey r "team1_slug" = true ∧
         hasKey r "winner_team" = true) :
    ∃ res, headToHeadE rows A B = Except.ok res := by
  obtain ⟨w, hw⟩ := tallyE_go_ok A rows h (0, 0)
  refine ⟨⟨dictInsert (dictInsert (dictInsert [] A w.1) B w.2)
    "total_matches" (rows.length : Int), rows⟩, ?_⟩
  unfold headToHeadE tallyE
  rw [hw]
  rfl

/-- Witness for C3 at a concrete input: two rows whose `winner_team` is
NULL and `3` respectively are processed without error. -/
theorem headToHead_total_witness :
    (∀ r ∈ rowsOddWinners, hasKey r "team1_slug" = true ∧
      hasKey r "winner_team" = true) ∧
    ∃ res, headToHeadE rowsOddWinners "a" "b" = Except.ok res :=
  ⟨by decide, headToHead_total rowsOddWinners "a" "b" (by decide)⟩

/-- C5: the `history` field of the result is the input list itself,
unmodified and in the caller's order. -/
theorem h2h_history_unmodified (ms : List MatchRec) (A B : String) :
    (get_matches_head_to_head ms A B).history = ms := rfl

/-- C6: on the empty match list the aggregator raises no error and
returns zero win counts for both slugs, a zero `total_matches`, and an
empty history — whatever the two slugs are, equal or not. -/
theorem h2h_empty_input (A B : String) :
    winsOf (get_matches_head_to_head [] A B) A = some 0 ∧
    winsOf (get_matches_head_to_head [] A B) B = some 0 ∧
    totalOf (get_matches_head_to_head [] A B) = some 0 ∧
    (get_matches_head_to_head [] A B).history = [] := by
  have hs : (get_matches_head_to_head [] A B).summary =
      dictInsert (dictInsert (dictInsert [] A 0) B 0) "total_matches" 0 := rfl
  refine ⟨?_, ?_, ?_, rfl⟩
  · unfold winsOf
    rw [hs]
    by_cases hA : A = "total_matches"
    · rw [hA, dictGet_insert_self]
    · rw [dictGet_insert_ne _ _ _ _ hA]
      by_cases hAB : A = B
      · rw [hAB, dictGet_insert_self]
      · rw [dictGet_insert_ne _ _ _ _ hAB, dictGet_insert_self]
  · unfold winsOf
    rw [hs]
    by_cases hB : B = "total_matches"
    · rw [hB, dictGet_insert_self]
    · rw [dictGet_insert_ne _ _ _ _ hB, dictGet_insert_self]
  · unfold totalOf
    rw [hs, dictGet_insert_self]

/-- C7: for every input list the summary records a non-negative win count
for each slug and a `total_matches` equal to the length of the input. -/
theorem h2h_result_bounds (ms : List MatchRec) (A B : String)
    (hAB : A ≠ B) (hA : A ≠ "total_matches") (hB : B ≠ "total_matches") :
    (∃ wA, winsOf (get_matches_head_to_head ms A B) A = some wA ∧
      0 ≤ wA) ∧
    (∃ wB, winsOf (get_matches_head_to_head ms A B) B = some wB ∧
      0 ≤ wB) ∧
    totalOf (get_matches_head_to_head ms A B) = some (ms.length : Int) := by
  obtain ⟨n1, n2⟩ := tally_nonneg ms A
  exact ⟨⟨_, winsOf_eq_fst ms A B hAB hA hB, n1⟩,
    ⟨_, winsOf_eq_snd ms A B hAB hA hB, n2⟩,
    totalOf_eq ms A B hAB hA hB⟩

/-- Witness for C7 at a concrete input: on `msSample` the counts are
`2 ≥ 0` and `1 ≥ 0` and the total is its length `3`. -/
theorem h2h_result_bounds_witness :
    (("a" : String) ≠ "b" ∧ ("a" : String) ≠ "total_matches" ∧
     ("b" : String) ≠ "total_matches") ∧
    ((∃ wA, winsOf (get_matches_head_to_head msSample "a" "b") "a" =
        some wA ∧ 0 ≤ wA) ∧
     (∃ wB, winsOf (get_matches_head_to_head msSample "a" "b") "b" =
        some wB ∧ 0 ≤ wB) ∧
     totalOf (get_matches_head_to_head msSample "a" "b") =
       some ((msSample.length : Int))) :=
  ⟨⟨by decide, by decide, by decide⟩,
   h2h_result_bounds msSample "a" "b" (by decide) (by decide) (by decide)⟩

/-- C4 counterexample: on a single `a` versus `b` match with a NULL
winner, both call orders credit the match to their second argument, so
the win counts are not swapped: the first-slot count of the swapped call
(the summary value at key `b` of `(B, A) = ("b", "a")`) is `0` while the
second-slot count of the original call is `1`. -/
theorem h2h_swap_counterexample :
    ¬ (winsOf (get_matches_head_to_head [⟨"a", "b", none⟩] "b" "a") "b" =
         winsOf (get_matches_head_to_head [⟨"a", "b", none⟩] "a" "b") "b" ∧
       winsOf (get_matches_head_to_head [⟨"a", "b", none⟩] "b" "a") "a" =
         winsOf (get_matches_head_to_head [⟨"a", "b", none⟩] "a" "b") "a") := by
  decide

/-- C4 amended: swapping the argument order swaps the two win counts and
keeps `total_matches`, provided every match is genuinely between `A` and
`B` (slugs exactly `{A, B}`, `A ≠ B`) and has a winner side in `{1, 2}` —
the spec's own match invariant.  Each slug's count is then the same in
whichever slot it is passed. -/
theorem h2h_swap_amended (ms : List MatchRec) (A B : String)
    (hAB : A ≠ B) (hA : A ≠ "total_matches") (hB : B ≠ "total_matches")
    (hm : ∀ m ∈ ms,
      ((m.team1_slug = A ∧ m.team2_slug = B) ∨
       (m.team1_slug = B ∧ m.team2_slug = A)) ∧
      (m.winner_team = some 1 ∨ m.winner_team = some 2)) :
    winsOf (get_matches_head_to_head ms B A) B =
      winsOf (get_matches_head_to_head ms A B) B ∧
    winsOf (get_matches_head_to_head ms B A) A =
      winsOf (get_matches_head_to_head ms A B) A ∧
    totalOf (get_matches_head_to_head ms B A) =
      totalOf (get_matches_head_to_head ms A B) := by
  have hswap : ∀ m ∈ ms, winsBySpec B m = !winsBySpec A m :=
    fun m hm2 => winsBySpec_swap A B m hAB (hm m hm2).1 (hm m hm2).2
  have c1 : ms.countP (winsBySpec B) =
      ms.countP (fun m => !winsBySpec A m) :=
    List.countP_congr (fun m hm2 => by rw [hswap m hm2])
  have c2 : ms.countP (fun m => !winsBySpec B m) =
      ms.countP (winsBySpec A) :=
    List.countP_congr (fun m hm2 => by rw [hswap m hm2, Bool.not_not])
  refine ⟨?_, ?_, ?_⟩
  · rw [winsOf_eq_fst ms B A (Ne.symm hAB) hB hA,
      winsOf_eq_snd ms A B hAB hA hB, tally_fst, tally_snd, c1]
  · rw [winsOf_eq_snd ms B A (Ne.symm hAB) hB hA,
      winsOf_eq_fst ms A B hAB hA hB, tally_fst, tally_snd, c2]
  · rw [totalOf_eq ms B A (Ne.symm hAB) hB hA,
      totalOf_eq ms A B hAB hA hB]

/-- Witness for the amended C4 at a concrete input: on the two decided
matches of `msSample`'s first two entries the swap property holds. -/
theorem h2h_swap_amended_witness :
    (("a" : String) ≠ "b" ∧ ("a" : String) ≠ "total_matches" ∧
     ("b" : String) ≠ "total_matches" ∧
     (∀ m ∈ [(⟨"a", "b", some 1⟩ : MatchRec), ⟨"b", "a", some 2⟩],
       ((m.team1_slug = "a" ∧ m.team2_slug = "b") ∨
        (m.team1_slug = "b" ∧ m.team2_slug = "a")) ∧
       (m.winner_team = some 1 ∨ m.winner_team = some 2))) ∧
    (winsOf (get_matches_head_to_head
        [⟨"a", "b", some 1⟩, ⟨"b", "a", some 2⟩] "b" "a") "b" =
      winsOf (get_matches_head_to_head
        [⟨"a", "b", some 1⟩, ⟨"b", "a", some 2⟩] "a" "b") "b" ∧
     winsOf (get_matches_head_to_head
        [⟨"a", "b", some 1⟩, ⟨"b", "a", some 2⟩] "b" "a") "a" =
      winsOf (get_matches_head_to_head
        [⟨"a", "b", some 1⟩, ⟨"b", "a", some 2⟩] "a" "b") "a" ∧
     totalOf (get_matches_head_to_head
        [⟨"a", "b", some 1⟩, ⟨"b", "a", some 2⟩] "b" "a") =
      totalOf (get_matches_head_to_head
        [⟨"a", "b", some 1⟩, ⟨"b", "a", some 2⟩] "a" "b")) :=
  ⟨⟨by decide, by decide, by decide, by decide⟩,
   h2h_swap_amended [⟨"a", "b", some 1⟩, ⟨"b", "a", some 2⟩] "a" "b"
     (by decide) (by decide) (by decide) (by decide)⟩

/-- C8: on an input containing a match that involves neither queried
slug, the aggregator returns without error (shown in both models) yet
credits the stray match as a win to `a`: its tallies differ from the
correct tallies over the matches that involve `a` or `b`, which form the
empty list here — a silent miscount, not a raised error. -/
theorem h2h_stray_match_miscounts :
    headToHeadE [strayRow] "a" "b" =
      Except.ok ⟨[("a", 1), ("b", 0), ("total_matches", 1)], [strayRow]⟩ ∧
    winsOf (get_matches_head_to_head msStray "a" "b") "a" = some 1 ∧
    msStray.filter (fun m => involves m "a" || involves m "b") = [] ∧
    tally (msStray.filter (fun m => involves m "a" || involves m "b")) "a" =
      (0, 0) ∧
    tally msStray "a" ≠ (0, 0) := by
  exact ⟨rfl, by decide, by decide, by decide, by decide⟩

/-- C9 counterexample: when both queried slugs are the literal string
`"total_matches"`, the collapsed summary's single value is the total
match count, not the second win counter (`1` versus `0` here). -/
theorem h2h_equal_slugs_counterexample :
    (get_matches_head_to_head [⟨"total_matches", "x", some 1⟩]
        "total_matches" "total_matches").summary ≠
      [("total_matches",
        (tally [⟨"total_matches", "x", some 1⟩] "total_matches").2)] ∧
    (get_matches_head_to_head [⟨"total_matches", "x", some 1⟩]
        "total_matches" "total_matches").summary =
      [("total_matches", 1)] := by decide

/-- C9 amended: when the two queried slugs are equal (and distinct from
the reserved key `"total_matches"`), the summary collapses to a single
slug key holding the second win counter only — the first counter is
discarded — and the win values of the summary then fail to add up to
`total_matches` on some inputs (`0 ≠ 1` on one decided match). -/
theorem h2h_equal_slugs_collapse (ms : List MatchRec) (A : String)
    (hA : A ≠ "total_matches") :
    (get_matches_head_to_head ms A A).summary =
      [(A, (tally ms A).2), ("total_matches", (ms.length : Int))] ∧
    sumWins (get_matches_head_to_head [⟨"a", "b", some 1⟩] "a" "a").summary =
      0 ∧
    totalOf (get_matches_head_to_head [⟨"a", "b", some 1⟩] "a" "a") =
      some 1 := by
  have hA2 : (A == "total_matches") = false := by simpa using hA
  refine ⟨?_, by decide, by decide⟩
  simp [get_matches_head_to_head, dictInsert, hA2]

/-- Witness for the amended C9 at a concrete input: querying `msSample`
with the pair `("a", "a")` keeps only the second counter. -/
theorem h2h_equal_slugs_collapse_witness :
    (("a" : String) ≠ "total_matches") ∧
    ((get_matches_head_to_head msSample "a" "a").summary =
      [("a", (tally msSample "a").2),
       ("total_matches", ((msSample.length : Nat) : Int))] ∧
     sumWins (get_matches_head_to_head [⟨"a", "b", some 1⟩] "a" "a").summary =
      0 ∧
     totalOf (get_matches_head_to_head [⟨"a", "b", some 1⟩] "a" "a") =
      some 1) :=
  ⟨by decide, h2h_equal_slugs_collapse msSample "a" (by decide)⟩

/-- C10 counterexample: a match with `winner_team = 3` whose `team1_slug`
is not `A = "a"` is credited to `B = "b"`, not to `A` as the claim
states. -/
theorem h2h_out_of_range_counterexample :
    winsOf (get_matches_head_to_head [⟨"b", "a", some 3⟩] "a" "b") "a" ≠
      some 1 ∧
    winsOf (get_matches_head_to_head [⟨"b", "a", some 3⟩] "a" "b") "a" =
      some 0 ∧
    winsOf (get_matches_head_to_head [⟨"b", "a", some 3⟩] "a" "b") "b" =
      some 1 := by decide

/-- C10 amended: every match whose `winner_team` lies outside `{1, 2}` is
still counted, and is credited as a win to `B` in both branches (the
`else` of each inner comparison increments the second counter): when all
matches are such, `A`'s count is `0` and `B`'s count is the full input
length, so no match is skipped. -/
theorem h2h_out_of_range_credits_second (ms : List MatchRec) (A B : String)
    (hAB : A ≠ B) (hA : A ≠ "total_matches") (hB : B ≠ "total_matches")
    (h : ∀ m ∈ ms, m.winner_team ≠ some 1 ∧ m.winner_team ≠ some 2) :
    winsOf (get_matches_head_to_head ms A B) A = some 0 ∧
    winsOf (get_matches_head_to_head ms A B) B = some ((ms.length : Int)) := by
  have hzero : ms.countP (winsBySpec A) = 0 :=
    List.countP_eq_zero.mpr (fun m hm => by
      have hf := winsBySpec_out_of_range A m (h m hm).1 (h m hm).2
      simp [hf])
  have hfull : ms.countP (fun m => !winsBySpec A m) = ms.length :=
    List.countP_eq_length.mpr (fun m hm => by
      have hf := winsBySpec_out_of_range A m (h m hm).1 (h m hm).2
      simp [hf])
  constructor
  · rw [winsOf_eq_fst ms A B hAB hA hB, tally_fst, hzero]
    rfl
  · rw [winsOf_eq_snd ms A B hAB hA hB, tally_snd, hfull]

/-- Witness for the amended C10 at a concrete input: both matches of
`msOdd` (winners NULL and `3`) go to `b`, and none is skipped. -/
theorem h2h_out_of_range_credits_second_witness :
    (("a" : String) ≠ "b" ∧ ("a" : String) ≠ "total_matches" ∧
     ("b" : String) ≠ "total_matches" ∧
     (∀ m ∈ msOdd, m.winner_team ≠ some 1 ∧ m.winner_team ≠ some 2)) ∧
    (winsOf (get_matches_head_to_head msOdd "a" "b") "a" = some 0 ∧
     winsOf (get_matches_head_to_head msOdd "a" "b") "b" =
       some ((msOdd.length : Int))) :=
  ⟨⟨by decide, by decide, by decide, by decide⟩,
   h2h_out_of_range_credits_second msOdd "a" "b"
     (by decide) (by decide) (by decide) (by decide)⟩

end VoleAI
